import Mathlib

/-!
Verification of the FACEIT dashboard's stats aggregator and snapshot
reconciler.  The definitions below are shallow embeddings of the
JavaScript source: `calculatePlayerStats` from the stats calculator
module, and `findEloAt`, the repair pass and the notification gate from
the orchestrator (`index.js`).  JavaScript numbers are modelled as `Rat`
(or `Int`/`Nat` where the source only ever holds integers), JavaScript
objects used as dictionaries are modelled as insertion-ordered
association lists, and absent/non-numeric dynamic values are modelled
with `Option`.
-/

namespace FaceitDash

/-- JavaScript `Math.round`: round half toward positive infinity. -/
def jsRound (q : Rat) : Int := (q + 1/2).floor

/-- Left-pad a string with zeros up to width `d` (helper for `toFixed`). -/
def padZeros (s : String) (d : Nat) : String :=
  if s.length ≥ d then s else String.mk (List.replicate (d - s.length) '0') ++ s

/-- JavaScript `Number.prototype.toFixed(d)`: fixed-point decimal string,
ties rounded to the larger candidate integer. -/
def toFixed (q : Rat) (d : Nat) : String :=
  let n : Int := (q * ((10:Rat) ^ d) + 1/2).floor
  let m : Nat := n.natAbs
  let ip : Nat := m / 10 ^ d
  let fp : Nat := m % 10 ^ d
  (if n < 0 then "-" else "") ++ toString ip ++
    (if d = 0 then "" else "." ++ padZeros (toString fp) d)

/-- JavaScript string truthiness for an optional string field:
`undefined` and the empty string are falsy. -/
def strTruthy : Option String → Bool
  | none => false
  | some s => s ≠ ""

/-- Character-list core of JavaScript
`String.prototype.replace(string, string)`: replace the first occurrence
of the pattern only. -/
def replaceFirstList (rep : List Char) : List Char → List Char → List Char
  | [], _ => []
  | c :: rest, pat =>
    if pat.isPrefixOf (c :: rest) then rep ++ (c :: rest).drop pat.length
    else c :: replaceFirstList rep rest pat

/-- JavaScript `s.replace(pat, rep)` with string arguments (first
occurrence only, unlike Lean's `String.replace`). -/
def jsReplace (s pat rep : String) : String :=
  String.mk (replaceFirstList rep.data s.data pat.data)

/-! ### Insertion-ordered association lists (JavaScript objects) -/

/-- `m[k] = f(m[k])` on an object with key `k` present: update the first
(and, since keys are unique, only) binding of `k`. -/
def objUpdate {α : Type} : List (String × α) → String → (α → α) → List (String × α)
  | [], _, _ => []
  | kv :: rest, k, f =>
    if kv.1 = k then (kv.1, f kv.2) :: rest else kv :: objUpdate rest k f

/-- `if (!m[k]) m[k] = v`: insert a default binding at the end (JS object
insertion order) when the key is absent. -/
def objEnsure {α : Type} (m : List (String × α)) (k : String) (v : α) : List (String × α) :=
  if (m.lookup k).isSome then m else m ++ [(k, v)]

/-- `m[k] = (m[k] || 0) + 1` on a counter object. -/
def objIncr (m : List (String × Nat)) (k : String) : List (String × Nat) :=
  if (m.lookup k).isSome then objUpdate m k (fun n => n + 1) else m ++ [(k, 1)]

/-! ### Input data model (external API shapes consumed by the aggregator) -/

/-- A roster member inside a team of a match history item.  Dynamic fields
that may be absent are `Option`. -/
structure TeamPlayer where
  player_id : String
  nickname : Option String
  faceit_url : Option String
  avatar : Option String
deriving Repr, DecidableEq

/-- A team object of a match history item; `players` may be absent
(the source reads `team.players || []`). -/
structure Team where
  players : Option (List TeamPlayer)
deriving Repr, DecidableEq

/-- The `results` object of a match history item (`match.results?.winner`). -/
structure MatchResults where
  winner : Option String
deriving Repr, DecidableEq

/-- One match history item (newest-first list element).  `teams` is a
JavaScript object `side → team`, modelled as an insertion-ordered
association list. -/
structure HistoryItem where
  match_id : String
  finished_at : Int
  teams : Option (List (String × Team))
  results : Option MatchResults
deriving Repr, DecidableEq

/-- Per-player per-match statistics entry (`matchStatsMap[matchId][playerId]`).
`none` models an absent or non-numeric field (the source coerces those with
`+x || 0`); `__rounds` is only added when `typeof` is number. -/
structure PlayerMatchStats where
  Kills : Option Rat
  Deaths : Option Rat
  Assists : Option Rat
  ADR : Option Rat
  Headshots : Option Rat
  HeadshotsPercent : Option Rat
  MVPs : Option Rat
  rounds : Option Rat
deriving Repr, DecidableEq

/-- Per-match statistics object (`matchStatsMap[matchId]`): map name and
score annotations plus the per-player table.  A placeholder produced on
upstream failure has only `mapName` populated and an empty player table. -/
structure MatchStats where
  mapName : Option String
  score : Option String
  players : List (String × PlayerMatchStats)
deriving Repr, DecidableEq

/-- Raw ELO-history telemetry item: `date` is an epoch in milliseconds
(`none` models a non-numeric value, which turns into `NaN` downstream),
`elo` likewise; `elo_delta` is `none` when `undefined` or `""`. -/
structure RawEloItem where
  date : Option Int
  elo : Option Int
  elo_delta : Option Int
deriving Repr, DecidableEq

/-! ### Output data model -/

/-- A transformed ELO-history point (seconds, rating, optional delta). -/
structure EloPoint where
  date : Int
  elo : Int
  eloDiff : Option Int
deriving Repr, DecidableEq

/-- The `recent` aggregate block of the snapshot. -/
structure RecentStats where
  kills : Rat
  assists : Rat
  deaths : Rat
  wins : Nat
  kd : String
  adr : String
  hsPercent : String
  kr : String
  «matches» : Nat
  winratePct : Int
deriving Repr, DecidableEq

/-- Win/loss streak descriptor. -/
structure Streak where
  type : String
  count : Nat
deriving Repr, DecidableEq

/-- One row of the per-map performance table. -/
structure MapPerfEntry where
  map : String
  wins : Nat
  losses : Nat
  «matches» : Nat
  winrate : Int
  kd : String
deriving Repr, DecidableEq

/-- One aggregated teammate row. -/
structure TeammateEntry where
  playerId : String
  nickname : String
  url : String
  avatar : Option String
  count : Nat
  wins : Nat
  losses : Nat
  winratePct : Int
  winrate : String
deriving Repr, DecidableEq

/-- One detailed match record (heatmap data / notification payload). -/
structure DetailRecord where
  matchId : String
  date : Int
  kd : String
  result : String
  map : String
  score : String
  kills : Rat
  deaths : Rat
  assists : Rat
  adr : Rat
  hsPercent : Rat
  mvps : Rat
deriving Repr, DecidableEq

/-- The full snapshot returned by `calculatePlayerStats`. -/
structure PlayerStatsResult where
  recent : RecentStats
  teammates : List TeammateEntry
  eloHistory : List EloPoint
  matchHistory : List DetailRecord
  streak : Streak
  last5 : List String
  mapPerformance : List MapPerfEntry
deriving Repr, DecidableEq

/-! ### The aggregator (`calculatePlayerStats`) -/

/-- Per-map running aggregate (`mapData[mapName]`). -/
structure MapAgg where
  wins : Nat
  losses : Nat
  kills : Rat
  deaths : Rat
  «matches» : Nat
deriving Repr, DecidableEq

/-- First-sighting teammate metadata (`teammateInfo[id]`). -/
structure TInfo where
  nickname : Option String
  url : String
  avatar : Option String
deriving Repr, DecidableEq

/-- The mutable state of the aggregation loop over history items. -/
structure LoopState where
  kills : Rat
  deaths : Rat
  assists : Rat
  adrTotal : Rat
  hs : Rat
  count : Nat
  rounds : Rat
  teammateCounts : List (String × Nat)
  teammateWins : List (String × Nat)
  teammateLosses : List (String × Nat)
  teammateInfo : List (String × TInfo)
  mapData : List (String × MapAgg)
  matchResults : List String
  detailedHistory : List DetailRecord
deriving Repr, DecidableEq

/-- Initial loop state: all totals zero, all tables empty. -/
def initState : LoopState :=
  ⟨0, 0, 0, 0, 0, 0, 0, [], [], [], [], [], [], []⟩

/-- `stats.__mapName || "Unknown"`. -/
def getMapName : Option String → String
  | none => "Unknown"
  | some s => if s = "" then "Unknown" else s

/-- Locate the first team entry whose roster contains the player
(the source's `for..of` over `Object.entries(teams)` with `continue`
on sides not containing the player and `break` at the first that does). -/
def findSide (playerId : String) (teams : List (String × Team)) : Option (String × Team) :=
  teams.find? (fun st => (st.2.players.getD []).any (fun p => p.player_id = playerId))

/-- Teammate bookkeeping for one roster member `p` of the player's side. -/
def teammateStep (playerId : String) (didWin : Bool) (st : LoopState) (p : TeamPlayer) :
    LoopState :=
  if p.player_id = playerId then st
  else
    let st := { st with teammateCounts := objIncr st.teammateCounts p.player_id }
    let st :=
      if didWin then { st with teammateWins := objIncr st.teammateWins p.player_id }
      else { st with teammateLosses := objIncr st.teammateLosses p.player_id }
    let info : TInfo := ⟨p.nickname, jsReplace (p.faceit_url.getD "") "{lang}" "de", p.avatar⟩
    { st with teammateInfo := objEnsure st.teammateInfo p.player_id info }

/-- "Personal Stats" section: accumulate kills/deaths/assists/ADR/headshots
and rounds plus the processed-match counter, when the player's entry is
available. -/
def personalAccum (playerStats : Option PlayerMatchStats) (st : LoopState) : LoopState :=
  match playerStats with
  | some ps =>
    { st with
        kills := st.kills + ps.Kills.getD 0
        deaths := st.deaths + ps.Deaths.getD 0
        assists := st.assists + ps.Assists.getD 0
        adrTotal := st.adrTotal + ps.ADR.getD 0
        hs := st.hs + ps.Headshots.getD 0
        rounds := st.rounds + ps.rounds.getD 0
        count := st.count + 1 }
  | none => st

/-- "Determine win/loss for this match": `didWin` stays false unless both
`teams` and a truthy `winner` exist and some side contains the player. -/
def didWinOf (playerId : String) (m : HistoryItem) : Bool :=
  match m.teams, m.results.bind (·.winner) with
  | some teams, some w =>
    if w = "" then false
    else
      match findSide playerId teams with
      | some (side, _) => side = w
      | none => false
  | _, _ => false

/-- "Teammate Stats": fold the bookkeeping over the members of the
player's side (skipped entirely when `teams`/`winner` are missing or no
side contains the player). -/
def teammatesAccum (playerId : String) (didWin : Bool) (m : HistoryItem)
    (st : LoopState) : LoopState :=
  match m.teams, m.results.bind (·.winner) with
  | some teams, some w =>
    if w = "" then st
    else
      match findSide playerId teams with
      | some (_, team) => (team.players.getD []).foldl (teammateStep playerId didWin) st
      | none => st
  | _, _ => st

/-- "Track detailed match history for Heatmap": one record per item with a
personal stats entry. -/
def detailAccum (playerStats : Option PlayerMatchStats) (didWin : Bool) (mapName : String)
    (stats : MatchStats) (m : HistoryItem) (st : LoopState) : LoopState :=
  match playerStats with
  | some ps =>
    let mKills := ps.Kills.getD 0
    let mDeaths := ps.Deaths.getD 0
    let mKD :=
      if mDeaths ≠ 0 then toFixed (mKills / mDeaths) 2
      else if mKills > 0 then "10.0" else "0.00"
    let hsPct : Rat :=
      if mKills ≠ 0 then (jsRound (ps.Headshots.getD 0 / mKills * 100) : Rat) else 0
    let record : DetailRecord :=
      { matchId := m.match_id
        date := m.finished_at
        kd := mKD
        result := if didWin then "W" else "L"
        map := mapName
        score := stats.score.getD "0 - 0"
        kills := mKills
        deaths := mDeaths
        assists := ps.Assists.getD 0
        adr := ps.ADR.getD 0
        hsPercent :=
          match ps.HeadshotsPercent with
          | some v => if v = 0 then hsPct else v
          | none => hsPct
        mvps := ps.MVPs.getD 0 }
    { st with detailedHistory := st.detailedHistory ++ [record] }
  | none => st

/-- "Map stats accumulation": increment the bucket's match counter and its
win or loss counter, and add personal kills/deaths when available. -/
def mapAccum (playerStats : Option PlayerMatchStats) (didWin : Bool) (mapName : String)
    (st : LoopState) : LoopState :=
  let incrMatches : MapAgg → MapAgg := fun d => { d with «matches» := d.«matches» + 1 }
  let incrOutcome : MapAgg → MapAgg := fun d =>
    if didWin then { d with wins := d.wins + 1 } else { d with losses := d.losses + 1 }
  let st := { st with mapData := objUpdate st.mapData mapName incrMatches }
  let st := { st with mapData := objUpdate st.mapData mapName incrOutcome }
  match playerStats with
  | some ps =>
    let addKD : MapAgg → MapAgg := fun d =>
      { d with kills := d.kills + ps.Kills.getD 0, deaths := d.deaths + ps.Deaths.getD 0 }
    { st with mapData := objUpdate st.mapData mapName addKD }
  | none => st

/-- Process one history item (one iteration of the main `for` loop of
`calculatePlayerStats`); items whose match id has no entry in
`matchStatsMap` are skipped entirely (`if (!stats) continue`). -/
def processMatch (playerId : String) (matchStatsMap : List (String × MatchStats))
    (st : LoopState) (m : HistoryItem) : LoopState :=
  match matchStatsMap.lookup m.match_id with
  | none => st
  | some stats =>
    let playerStats := stats.players.lookup playerId
    -- Personal Stats
    let st := personalAccum playerStats st
    -- Map Performance: ensure bucket exists
    let mapName := getMapName stats.mapName
    let st := { st with mapData := objEnsure st.mapData mapName ⟨0, 0, 0, 0, 0⟩ }
    -- Determine win/loss; teammate stats on the player's side
    let didWin := didWinOf playerId m
    let st := teammatesAccum playerId didWin m st
    -- Track match result
    let st := { st with matchResults := st.matchResults ++ [if didWin then "W" else "L"] }
    -- Detailed match history (only when personal stats are available)
    let st := detailAccum playerStats didWin mapName stats m st
    -- Map stats accumulation
    mapAccum playerStats didWin mapName st

/-- The whole aggregation loop of `calculatePlayerStats`. -/
def loopStateOf (playerId : String) (history : List HistoryItem)
    (matchStatsMap : List (String × MatchStats)) : LoopState :=
  history.foldl (processMatch playerId matchStatsMap) initState

/-- The outcome sequence (`matchResults`, newest-first) accumulated by the
loop: one `"W"`/`"L"` per history item that has a per-match stats entry. -/
def matchResultsOf (playerId : String) (history : List HistoryItem)
    (matchStatsMap : List (String × MatchStats)) : List String :=
  (loopStateOf playerId history matchStatsMap).matchResults

/-- Stable insertion (descending by `matches`) used to model the source's
stable `sort((a, b) => b.matches - a.matches)`. -/
def insertByMatchesDesc (x : MapPerfEntry) : List MapPerfEntry → List MapPerfEntry
  | [] => [x]
  | y :: ys =>
    if y.«matches» > x.«matches» then y :: insertByMatchesDesc x ys else x :: y :: ys

/-- Stable sort of the map-performance table, matches played descending. -/
def sortByMatchesDesc (l : List MapPerfEntry) : List MapPerfEntry :=
  l.foldr insertByMatchesDesc []

/-- One row of the map-performance table, built from a `mapData` binding. -/
def buildMapPerf (md : String × MapAgg) : MapPerfEntry :=
  { map := md.1
    wins := md.2.wins
    losses := md.2.losses
    «matches» := md.2.«matches»
    winrate :=
      if md.2.«matches» ≠ 0 then jsRound ((md.2.wins : Rat) / (md.2.«matches» : Rat) * 100)
      else 0
    kd := if md.2.deaths ≠ 0 then toFixed (md.2.kills / md.2.deaths) 2 else "0.00" }

/-- One aggregated teammate row, built from the teammate tables of the
final loop state (one per `Object.entries(teammateCounts)` binding). -/
def buildTeammate (st : LoopState) (ic : String × Nat) : TeammateEntry :=
  let info := (st.teammateInfo.lookup ic.1).getD ⟨none, "", none⟩
  let w := (st.teammateWins.lookup ic.1).getD 0
  let l := (st.teammateLosses.lookup ic.1).getD 0
  { playerId := ic.1
    nickname :=
      match info.nickname with
      | some s => if s = "" then "—" else s
      | none => "—"
    url := if info.url = "" then "#" else info.url
    avatar := info.avatar
    count := ic.2
    wins := w
    losses := l
    winratePct := if ic.2 ≠ 0 then jsRound ((w : Rat) / (ic.2 : Rat) * 100) else 0
    winrate :=
      if ic.2 ≠ 0 then toString (jsRound ((w : Rat) / (ic.2 : Rat) * 100)) ++ "%" else "—" }

/-- The ELO history transform: floor milliseconds to seconds, drop items
with non-numeric date or rating, reverse from newest-first to oldest-first.
(The source maps and then filters out `NaN` entries; `filterMap` fuses the
two steps.) -/
def transformEloHistory (raw : List RawEloItem) : List EloPoint :=
  (raw.filterMap (fun item =>
    match item.date, item.elo with
    | some d, some e => some { date := Int.fdiv d 1000, elo := e, eloDiff := item.elo_delta }
    | _, _ => none)).reverse

/-- `_emptyStats()`: the all-zero/empty snapshot returned on guard failure. -/
def emptyStats : PlayerStatsResult :=
  { recent := { kills := 0, assists := 0, deaths := 0, wins := 0, kd := "0.00",
                adr := "0.0", hsPercent := "0%", kr := "0.00",
                «matches» := 0, winratePct := 0 }
    teammates := []
    eloHistory := []
    matchHistory := []
    streak := { type := "none", count := 0 }
    last5 := []
    mapPerformance := [] }

/-- `calculatePlayerStats(playerId, history, matchStatsMap, externalEloHistory)`.
The source's `!playerId` guard fires on the empty string (`!history` and
`!matchStatsMap` fire only on `null`/`undefined`, which typed lists exclude). -/
def calculatePlayerStats (playerId : String) (history : List HistoryItem)
    (matchStatsMap : List (String × MatchStats))
    (externalEloHistory : List RawEloItem) : PlayerStatsResult :=
  if playerId = "" then emptyStats
  else
    let st := loopStateOf playerId history matchStatsMap
    let wins := (st.matchResults.filter (fun r => r = "W")).length
    let recentStats : RecentStats :=
      { kills := st.kills
        assists := st.assists
        deaths := st.deaths
        wins := wins
        kd := if st.count ≠ 0 ∧ st.deaths ≠ 0 then toFixed (st.kills / st.deaths) 2 else "0.00"
        adr := if st.count ≠ 0 then toFixed (st.adrTotal / st.count) 1 else "0.0"
        hsPercent :=
          if st.kills ≠ 0 then toString (jsRound (st.hs / st.kills * 100)) ++ "%" else "0%"
        kr := if st.rounds ≠ 0 then toFixed (st.kills / st.rounds) 2 else "0.00"
        «matches» := st.count
        winratePct := if st.count ≠ 0 then jsRound ((wins : Rat) / (st.count : Rat) * 100) else 0 }
    let streak : Streak :=
      match st.matchResults with
      | [] => { type := "none", count := 0 }
      | first :: _ =>
        { type := if first = "W" then "win" else "loss"
          count := (st.matchResults.takeWhile (fun r => r = first)).length }
    let last5 := st.matchResults.take 5
    let mapPerformance := sortByMatchesDesc (st.mapData.map buildMapPerf)
    let eloHistory := transformEloHistory externalEloHistory
    let teammates :=
      (st.teammateCounts.map (buildTeammate st)).filter
        (fun p => p.nickname ≠ "" ∧ p.nickname ≠ "—")
    { recent := recentStats
      teammates := teammates
      eloHistory := eloHistory
      matchHistory := st.detailedHistory
      streak := streak
      last5 := last5
      mapPerformance := mapPerformance }

/-! ### The snapshot reconciler (`index.js`) -/

/-- One row of a period rating table (`{playerId, elo}`). -/
structure SnapshotRow where
  playerId : String
  elo : Int
deriving Repr, DecidableEq

/-- The slice of a processed player result consumed by the reconciler:
current live rating, last-match timestamp (`lastTs || 0`, so `0` means
"no matches"), and the oldest-first transformed ELO history. -/
structure PlayerResult where
  playerId : String
  elo : Int
  lastMatchTs : Int
  eloHistory : List EloPoint
deriving Repr, DecidableEq

/-- `findEloAt(player, dateThreshold)`: rating at a boundary instant.
Scan the oldest-first ELO history from the most recent point backward for
the first point at or before the threshold; fall back to the earliest
point, then to the current live rating. -/
def findEloAt (p : PlayerResult) (thresholdTs : Int) : Int :=
  if p.eloHistory = [] then p.elo
  else
    match p.eloHistory.reverse.find? (fun pt => pt.date ≤ thresholdTs) with
    | some pt => pt.elo
    | none =>
      match p.eloHistory.head? with
      | some pt => pt.elo
      | none => p.elo

/-- Replace the elo of the first row with the given player id. -/
def setFirstElo (pid : String) (e : Int) : List SnapshotRow → List SnapshotRow
  | [] => []
  | r :: rest =>
    if r.playerId = pid then { r with elo := e } :: rest else r :: setFirstElo pid e rest

/-- `existing.elo = elo` through the snapshot `Map`: the `Map` built by the
JS `Map` constructor keeps, for each player id, the **last** row of the
table, and mutating it writes through to that row.  Set the elo of the
last row with the given player id. -/
def setLastElo (rows : List SnapshotRow) (pid : String) (e : Int) : List SnapshotRow :=
  (setFirstElo pid e rows.reverse).reverse

/-- `snapshotMap.get(pid).elo`: elo of the last row with the given id. -/
def lastElo? (rows : List SnapshotRow) (pid : String) : Option Int :=
  (rows.reverse.find? (fun r => r.playerId = pid)).map (·.elo)

/-- `p.lastMatchTs && p.lastMatchTs >= thresholdTs` (0 is falsy). -/
def playedInPeriod (p : PlayerResult) (thresholdTs : Int) : Bool :=
  p.lastMatchTs ≠ 0 ∧ p.lastMatchTs ≥ thresholdTs

/-- State of the repair loop: the original table rows (mutated in place
through the snapshot map), the rows pushed for players absent from the
map, and the `changed` flag. -/
structure RepairState where
  base : List SnapshotRow
  extra : List SnapshotRow
  changed : Bool
deriving Repr, DecidableEq

/-- One iteration of the repair loop (`for (const p of results)`): insert a
row (at-boundary rating if active, live rating otherwise) for a player
with no row, or overwrite a stale row of an inactive player with the live
rating.  Lookups go through the snapshot map built from the table at loop
entry, so pushed rows are invisible to later lookups in the same pass. -/
def repairStep (thresholdTs : Int) (st : RepairState) (p : PlayerResult) : RepairState :=
  match lastElo? st.base p.playerId with
  | none =>
    { st with
        extra := st.extra ++
          [⟨p.playerId, if playedInPeriod p thresholdTs then findEloAt p thresholdTs
                        else p.elo⟩]
        changed := true }
  | some e =>
    if ¬ playedInPeriod p thresholdTs ∧ e ≠ p.elo then
      { st with base := setLastElo st.base p.playerId p.elo, changed := true }
    else st

/-- The repair & backfill pass over one period table: returns the final
table (original rows, possibly repaired, followed by pushed rows) and the
`changed` flag that gates persisting it. -/
def repairPass (table : List SnapshotRow) (results : List PlayerResult)
    (thresholdTs : Int) : List SnapshotRow × Bool :=
  let st := results.foldl (repairStep thresholdTs) ⟨table, [], false⟩
  (st.base ++ st.extra, st.changed)

/-! ### The notification gate (`index.js` main loop) -/

/-- The notification decision for one player: given the stored
last-announced match id, the player's latest match id (`null` when the
history is empty), the freshly computed `matchHistory` and the run's
comparison threshold, return whether a notification is emitted and the
new stored last-announced id for this player. -/
def notificationGate (lastSaved : Option String) (latestMatchId : Option String)
    (matchHistory : List DetailRecord) (comparisonTs : Int) : Bool × Option String :=
  match latestMatchId with
  | none => (false, lastSaved)
  | some mid =>
    if mid = "" then (false, lastSaved)          -- `p.latestMatchId &&` (falsy id)
    else if some mid = lastSaved then (false, lastSaved)
    else
      let notify :=
        match matchHistory.head? with
        | none => false                           -- no detail record: nothing sent
        | some r0 => decide (r0.date > comparisonTs)
      (notify, some mid)

/-! ## General list lemmas -/

lemma find?_eq_head?_filter {α : Type} (p : α → Bool) (l : List α) :
    l.find? p = (l.filter p).head? := by
  induction l with
  | nil => rfl
  | cons a t ih =>
    by_cases h : p a
    · rw [List.find?_cons_of_pos _ h, List.filter_cons_of_pos h]
      rfl
    · rw [List.find?_cons_of_neg _ h, List.filter_cons_of_neg h, ih]

lemma find?_reverse_eq_getLast?_filter {α : Type} (p : α → Bool) (l : List α) :
    l.reverse.find? p = (l.filter p).getLast? := by
  rw [find?_eq_head?_filter, List.filter_reverse, List.head?_reverse]

/-! ## C5: the rating-at-boundary lookup -/

/-- C5: over the player's oldest-first rating history, `findEloAt` returns the
rating of the latest (last-in-list) point whose timestamp is at or before the
boundary; if the history is non-empty but no point qualifies, the earliest
point's rating; if the history is empty, the player's current live rating. -/
theorem C5_findEloAt_spec (p : PlayerResult) (t : Int) :
    (p.eloHistory = [] → findEloAt p t = p.elo) ∧
    (∀ pt, (p.eloHistory.filter (fun q => q.date ≤ t)).getLast? = some pt →
        findEloAt p t = pt.elo) ∧
    (p.eloHistory ≠ [] → p.eloHistory.filter (fun q => q.date ≤ t) = [] →
        ∀ pt, p.eloHistory.head? = some pt → findEloAt p t = pt.elo) := by
  refine ⟨fun h => by simp [findEloAt, h], ?_, ?_⟩
  · intro pt hpt
    have hne : p.eloHistory ≠ [] := by
      intro h
      rw [h] at hpt
      simp at hpt
    have hfind : p.eloHistory.reverse.find? (fun q => decide (q.date ≤ t)) = some pt := by
      rw [find?_reverse_eq_getLast?_filter]
      exact hpt
    unfold findEloAt
    rw [if_neg hne, hfind]
  · intro hne hfilt pt hhead
    have hfind : p.eloHistory.reverse.find? (fun q => decide (q.date ≤ t)) = none := by
      rw [find?_reverse_eq_getLast?_filter, hfilt]
      rfl
    unfold findEloAt
    rw [if_neg hne, hfind, hhead]

/-- A concrete player for the `findEloAt` witness. -/
def c5player : PlayerResult := ⟨"a", 999, 0, [⟨1, 1550, none⟩, ⟨2, 1600, none⟩]⟩

/-- Witness for C5: at boundary 1 the qualifying points are exactly the first
one, so the lookup returns 1550. -/
theorem C5_findEloAt_spec_witness : findEloAt c5player 1 = 1550 :=
  (C5_findEloAt_spec c5player 1).2.1 ⟨1, 1550, none⟩ (by decide)

/-! ## C6: notification suppression with state update -/

/-- C6: when the latest match id differs from the stored last-announced id
but the newest `matchHistory` record's timestamp is at or before the run's
comparison threshold, no notification is emitted while the stored id is
still updated to the new match id. -/
theorem C6_suppression_updates_state (lastSaved : Option String) (mid : String)
    (mh : List DetailRecord) (T : Int) (r0 : DetailRecord)
    (hmid : mid ≠ "") (hnew : lastSaved ≠ some mid)
    (hhead : mh.head? = some r0) (hts : r0.date ≤ T) :
    notificationGate lastSaved (some mid) mh T = (false, some mid) := by
  have hne : ¬ (some mid = lastSaved) := fun h => hnew h.symm
  simp only [notificationGate]
  rw [if_neg hmid, if_neg hne, hhead]
  simp [not_lt.mpr hts]

/-- A concrete newest match record for the notification witness. -/
def c6record : DetailRecord :=
  ⟨"mNew", 100, "1.00", "W", "de_mirage", "13 - 7", 10, 10, 2, 80, 50, 3⟩

/-- Witness for C6: a changed match id whose timestamp equals the threshold
is suppressed but the stored id becomes the new one. -/
theorem C6_suppression_updates_state_witness :
    notificationGate (some "mOld") (some "mNew") [c6record] 100 = (false, some "mNew") :=
  C6_suppression_updates_state (some "mOld") "mNew" [c6record] 100 c6record
    (by decide) (by decide) (by decide) (by decide)

/-! ## C7: the rating-history transform -/

/-- C7: the transform keeps exactly the raw points with numeric date and
rating, maps each to floor(ms/1000) seconds with rating and delta carried
over, and reverses newest-first input to oldest-first output; on the raw
input `[{date:2000ms, rating:1600}, {date:1000ms, rating:1550}]` it yields
`[{epochSeconds:1, rating:1550}, {epochSeconds:2, rating:1600}]`. -/
theorem C7_elo_transform :
    (∀ raw : List RawEloItem,
      transformEloHistory raw =
        ((raw.filter (fun it => it.date.isSome && it.elo.isSome)).map (fun it =>
          { date := Int.fdiv (it.date.getD 0) 1000, elo := it.elo.getD 0,
            eloDiff := it.elo_delta })).reverse) ∧
    transformEloHistory [⟨some 2000, some 1600, none⟩, ⟨some 1000, some 1550, none⟩] =
      [⟨1, 1550, none⟩, ⟨2, 1600, none⟩] := by
  constructor
  · intro raw
    unfold transformEloHistory
    congr 1
    induction raw with
    | nil => rfl
    | cons a t ih =>
      cases hd : a.date <;> cases he : a.elo <;>
        simp [List.filterMap_cons, List.filter_cons, hd, he, ih]
  · decide

/-! ## C3: empty history -/

/-- Counterexample to C3 as stated: with a 0-item history but a non-empty
raw ELO history argument, the returned `eloHistory` is not empty, so not
every subfield of the snapshot is all-zero/empty. -/
theorem C3_counterexample :
    (calculatePlayerStats "p" [] [] [⟨some 2000, some 1600, none⟩]).eloHistory ≠ [] := by
  decide

/-- C3 amended: for a 0-item history and a non-empty player id, every
subfield of the snapshot is all-zero/empty except `eloHistory`, which is
the rating-history transform of the raw ELO argument (hence empty whenever
that argument is empty); no division by zero or error occurs. -/
theorem C3_empty_history (pid : String) (h : pid ≠ "") (msm : List (String × MatchStats))
    (ext : List RawEloItem) :
    calculatePlayerStats pid [] msm ext =
      { emptyStats with eloHistory := transformEloHistory ext } := by
  unfold calculatePlayerStats
  rw [if_neg h]
  rfl

/-- Witness for C3: concrete instance with empty raw ELO history, giving
the fully empty snapshot. -/
theorem C3_empty_history_witness :
    calculatePlayerStats "p" [] [] [] = { emptyStats with eloHistory := transformEloHistory [] } :=
  C3_empty_history "p" (by decide) [] []

/-! ## Loop bookkeeping lemmas

Teammate bookkeeping touches only the four teammate tables; the per-item
counters, the outcome sequence, the detail log and the map table pass
through it unchanged. -/

lemma teammateStep_preserves (pid : String) (w : Bool) (st : LoopState) (p : TeamPlayer) :
    (teammateStep pid w st p).count = st.count ∧
    (teammateStep pid w st p).matchResults = st.matchResults ∧
    (teammateStep pid w st p).detailedHistory = st.detailedHistory ∧
    (teammateStep pid w st p).mapData = st.mapData := by
  unfold teammateStep
  split
  · exact ⟨rfl, rfl, rfl, rfl⟩
  · split <;> exact ⟨rfl, rfl, rfl, rfl⟩

lemma tmFold_preserves (pid : String) (w : Bool) :
    ∀ (ps : List TeamPlayer) (st : LoopState),
      (ps.foldl (teammateStep pid w) st).count = st.count ∧
      (ps.foldl (teammateStep pid w) st).matchResults = st.matchResults ∧
      (ps.foldl (teammateStep pid w) st).detailedHistory = st.detailedHistory ∧
      (ps.foldl (teammateStep pid w) st).mapData = st.mapData := by
  intro ps
  induction ps with
  | nil => exact fun st => ⟨rfl, rfl, rfl, rfl⟩
  | cons a t ih =>
    intro st
    rw [List.foldl_cons]
    obtain ⟨h1, h2, h3, h4⟩ := ih (teammateStep pid w st a)
    obtain ⟨g1, g2, g3, g4⟩ := teammateStep_preserves pid w st a
    exact ⟨h1.trans g1, h2.trans g2, h3.trans g3, h4.trans g4⟩

/-! ## Association-list lemmas -/

lemma lookup_cons_self {α : Type} (a : String × α) (t : List (String × α)) (k : String)
    (h : a.1 = k) : ((a :: t).lookup k) = some a.2 := by
  have hb : (k == a.1) = true := by simp [h]
  simp [List.lookup, hb]

lemma lookup_cons_ne {α : Type} (a : String × α) (t : List (String × α)) (k : String)
    (h : ¬ a.1 = k) : ((a :: t).lookup k) = t.lookup k := by
  have hb : (k == a.1) = false := by simp; exact fun e => h e.symm
  simp [List.lookup, hb]

lemma lookup_append_single {α : Type} (k : String) (v : α) :
    ∀ m : List (String × α),
      ((m ++ [(k, v)]).lookup k) = ((m.lookup k).orElse fun _ => some v) := by
  intro m
  induction m with
  | nil => simp [List.lookup]
  | cons a t ih =>
    by_cases h : a.1 = k
    · rw [List.cons_append, lookup_cons_self _ _ _ h, lookup_cons_self _ _ _ h]
      rfl
    · rw [List.cons_append, lookup_cons_ne _ _ _ h, lookup_cons_ne _ _ _ h, ih]

lemma lookup_objEnsure_self {α : Type} (m : List (String × α)) (k : String) (v : α) :
    ((objEnsure m k v).lookup k).isSome := by
  unfold objEnsure
  split
  · assumption
  · rw [lookup_append_single]
    cases m.lookup k <;> simp

/-! ## Map-table match-count sum -/

/-- Sum of the `matches` counters over all map buckets. -/
def mapMatchesSum (l : List (String × MapAgg)) : Nat :=
  (l.map (fun md => md.2.«matches»)).sum

lemma mapMatchesSum_nil : mapMatchesSum [] = 0 := rfl

lemma mapMatchesSum_cons (a : String × MapAgg) (l : List (String × MapAgg)) :
    mapMatchesSum (a :: l) = a.2.«matches» + mapMatchesSum l := by
  simp [mapMatchesSum]

lemma mapMatchesSum_append (l1 l2 : List (String × MapAgg)) :
    mapMatchesSum (l1 ++ l2) = mapMatchesSum l1 + mapMatchesSum l2 := by
  simp [mapMatchesSum]

lemma mapMatchesSum_objEnsure (m : List (String × MapAgg)) (k : String) (v : MapAgg)
    (hv : v.«matches» = 0) : mapMatchesSum (objEnsure m k v) = mapMatchesSum m := by
  unfold objEnsure
  split
  · rfl
  · rw [mapMatchesSum_append, mapMatchesSum_cons, mapMatchesSum_nil, hv]
    omega

lemma mapMatchesSum_objUpdate_of_const (k : String) (f : MapAgg → MapAgg)
    (hf : ∀ d, (f d).«matches» = d.«matches») :
    ∀ m, mapMatchesSum (objUpdate m k f) = mapMatchesSum m := by
  intro m
  induction m with
  | nil => rfl
  | cons a t ih =>
    unfold objUpdate
    split
    · rw [mapMatchesSum_cons, mapMatchesSum_cons, hf]
    · rw [mapMatchesSum_cons, mapMatchesSum_cons, ih]

lemma mapMatchesSum_objUpdate_incr (k : String) (f : MapAgg → MapAgg)
    (hf : ∀ d, (f d).«matches» = d.«matches» + 1) :
    ∀ m, ((m.lookup k).isSome) → mapMatchesSum (objUpdate m k f) = mapMatchesSum m + 1 := by
  intro m
  induction m with
  | nil => intro h; simp [List.lookup] at h
  | cons a t ih =>
    intro h
    unfold objUpdate
    split
    · rw [mapMatchesSum_cons, mapMatchesSum_cons, hf]
      omega
    · rename_i hne
      rw [lookup_cons_ne _ _ _ hne] at h
      rw [mapMatchesSum_cons, mapMatchesSum_cons, ih h]
      omega

/-! ## Per-item effect of `processMatch` on the loop counters -/

/-- A history item has a per-match stats entry (possibly a placeholder). -/
def statsPresent (msm : List (String × MatchStats)) (m : HistoryItem) : Bool :=
  (msm.lookup m.match_id).isSome

/-- A history item has a per-match stats entry containing a personal entry
for the player. -/
def personalPresent (pid : String) (msm : List (String × MatchStats)) (m : HistoryItem) : Bool :=
  match msm.lookup m.match_id with
  | some s => (s.players.lookup pid).isSome
  | none => false

lemma personalAccum_count (ps : Option PlayerMatchStats) (st : LoopState) :
    (personalAccum ps st).count = st.count + (if ps.isSome then 1 else 0) := by
  cases ps <;> simp [personalAccum]

lemma personalAccum_matchResults (ps : Option PlayerMatchStats) (st : LoopState) :
    (personalAccum ps st).matchResults = st.matchResults := by
  cases ps <;> rfl

lemma personalAccum_detailedHistory (ps : Option PlayerMatchStats) (st : LoopState) :
    (personalAccum ps st).detailedHistory = st.detailedHistory := by
  cases ps <;> rfl

lemma personalAccum_mapData (ps : Option PlayerMatchStats) (st : LoopState) :
    (personalAccum ps st).mapData = st.mapData := by
  cases ps <;> rfl

lemma teammatesAccum_preserves (pid : String) (w : Bool) (m : HistoryItem) (st : LoopState) :
    (teammatesAccum pid w m st).count = st.count ∧
    (teammatesAccum pid w m st).matchResults = st.matchResults ∧
    (teammatesAccum pid w m st).detailedHistory = st.detailedHistory ∧
    (teammatesAccum pid w m st).mapData = st.mapData := by
  unfold teammatesAccum
  split
  · split
    · exact ⟨rfl, rfl, rfl, rfl⟩
    · split
      · exact tmFold_preserves _ _ _ _
      · exact ⟨rfl, rfl, rfl, rfl⟩
  · exact ⟨rfl, rfl, rfl, rfl⟩

lemma teammatesAccum_count (pid : String) (w : Bool) (m : HistoryItem) (st : LoopState) :
    (teammatesAccum pid w m st).count = st.count := (teammatesAccum_preserves pid w m st).1

lemma teammatesAccum_matchResults (pid : String) (w : Bool) (m : HistoryItem) (st : LoopState) :
    (teammatesAccum pid w m st).matchResults = st.matchResults :=
  (teammatesAccum_preserves pid w m st).2.1

lemma teammatesAccum_detailedHistory (pid : String) (w : Bool) (m : HistoryItem) (st : LoopState) :
    (teammatesAccum pid w m st).detailedHistory = st.detailedHistory :=
  (teammatesAccum_preserves pid w m st).2.2.1

lemma teammatesAccum_mapData (pid : String) (w : Bool) (m : HistoryItem) (st : LoopState) :
    (teammatesAccum pid w m st).mapData = st.mapData :=
  (teammatesAccum_preserves pid w m st).2.2.2

lemma detailAccum_count (ps : Option PlayerMatchStats) (w : Bool) (mn : String)
    (stats : MatchStats) (m : HistoryItem) (st : LoopState) :
    (detailAccum ps w mn stats m st).count = st.count := by
  cases ps <;> rfl

lemma detailAccum_matchResults (ps : Option PlayerMatchStats) (w : Bool) (mn : String)
    (stats : MatchStats) (m : HistoryItem) (st : LoopState) :
    (detailAccum ps w mn stats m st).matchResults = st.matchResults := by
  cases ps <;> rfl

lemma detailAccum_mapData (ps : Option PlayerMatchStats) (w : Bool) (mn : String)
    (stats : MatchStats) (m : HistoryItem) (st : LoopState) :
    (detailAccum ps w mn stats m st).mapData = st.mapData := by
  cases ps <;> rfl

lemma detailAccum_detail_ids (ps : Option PlayerMatchStats) (w : Bool) (mn : String)
    (stats : MatchStats) (m : HistoryItem) (st : LoopState) :
    (detailAccum ps w mn stats m st).detailedHistory.map (·.matchId)
      = st.detailedHistory.map (·.matchId) ++ (if ps.isSome then [m.match_id] else []) := by
  cases ps <;> simp [detailAccum]

lemma mapAccum_count (ps : Option PlayerMatchStats) (w : Bool) (mn : String) (st : LoopState) :
    (mapAccum ps w mn st).count = st.count := by
  cases ps <;> rfl

lemma mapAccum_matchResults (ps : Option PlayerMatchStats) (w : Bool) (mn : String)
    (st : LoopState) :
    (mapAccum ps w mn st).matchResults = st.matchResults := by
  cases ps <;> rfl

lemma mapAccum_detailedHistory (ps : Option PlayerMatchStats) (w : Bool) (mn : String)
    (st : LoopState) :
    (mapAccum ps w mn st).detailedHistory = st.detailedHistory := by
  cases ps <;> rfl

lemma mapAccum_sum (ps : Option PlayerMatchStats) (w : Bool) (mn : String) (st : LoopState)
    (h : ((st.mapData.lookup mn).isSome)) :
    mapMatchesSum (mapAccum ps w mn st).mapData = mapMatchesSum st.mapData + 1 := by
  have hout : ∀ d : MapAgg,
      ((if w then { d with wins := d.wins + 1 } else { d with losses := d.losses + 1 }) :
        MapAgg).«matches» = d.«matches» := by
    intro d
    split <;> rfl
  cases ps with
  | none =>
    show mapMatchesSum (objUpdate (objUpdate st.mapData mn _) mn _) = _
    rw [mapMatchesSum_objUpdate_of_const mn
        (fun d => if w then { d with wins := d.wins + 1 } else { d with losses := d.losses + 1 })
        hout,
      mapMatchesSum_objUpdate_incr mn (fun d => { d with «matches» := d.«matches» + 1 })
        (fun _ => rfl) _ h]
  | some p =>
    show mapMatchesSum (objUpdate (objUpdate (objUpdate st.mapData mn _) mn _) mn _) = _
    rw [mapMatchesSum_objUpdate_of_const mn
        (fun d => { d with kills := d.kills + p.Kills.getD 0,
                           deaths := d.deaths + p.Deaths.getD 0 })
        (fun _ => rfl),
      mapMatchesSum_objUpdate_of_const mn
        (fun d => if w then { d with wins := d.wins + 1 } else { d with losses := d.losses + 1 })
        hout,
      mapMatchesSum_objUpdate_incr mn (fun d => { d with «matches» := d.«matches» + 1 })
        (fun _ => rfl) _ h]

/-- The net effect of one history item on the loop counters: the
processed-match counter and the detail log grow exactly on items with a
personal stats entry, the outcome sequence and the map-table match-count
sum grow exactly on items with any stats entry. -/
lemma processMatch_proj (pid : String) (msm : List (String × MatchStats))
    (st : LoopState) (m : HistoryItem) :
    (processMatch pid msm st m).count
      = st.count + (if personalPresent pid msm m then 1 else 0) ∧
    (processMatch pid msm st m).matchResults
      = st.matchResults
        ++ (if statsPresent msm m then [if didWinOf pid m then "W" else "L"] else []) ∧
    (processMatch pid msm st m).detailedHistory.map (·.matchId)
      = st.detailedHistory.map (·.matchId)
        ++ (if personalPresent pid msm m then [m.match_id] else []) ∧
    mapMatchesSum (processMatch pid msm st m).mapData
      = mapMatchesSum st.mapData + (if statsPresent msm m then 1 else 0) := by
  unfold processMatch statsPresent personalPresent
  cases hlook : msm.lookup m.match_id with
  | none => simp
  | some stats =>
    simp only [Option.isSome_some, if_true]
    refine ⟨?_, ?_, ?_, ?_⟩
    · rw [mapAccum_count, detailAccum_count]
      show (teammatesAccum _ _ _ _).count = _
      rw [teammatesAccum_count]
      show (personalAccum _ _).count = _
      rw [personalAccum_count]
    · rw [mapAccum_matchResults, detailAccum_matchResults]
      show (teammatesAccum _ _ _ _).matchResults ++ _ = _
      rw [teammatesAccum_matchResults]
      show (personalAccum _ _).matchResults ++ _ = _
      rw [personalAccum_matchResults]
    · rw [mapAccum_detailedHistory, detailAccum_detail_ids]
      show (teammatesAccum _ _ _ _).detailedHistory.map _ ++ _ = _
      rw [teammatesAccum_detailedHistory]
      show (personalAccum _ _).detailedHistory.map _ ++ _ = _
      rw [personalAccum_detailedHistory]
    · rw [mapAccum_sum]
      · rw [detailAccum_mapData]
        show mapMatchesSum (teammatesAccum _ _ _ _).mapData + 1 = _
        rw [teammatesAccum_mapData]
        show mapMatchesSum (objEnsure (personalAccum _ _).mapData _ _) + 1 = _
        rw [mapMatchesSum_objEnsure _ _ _ rfl, personalAccum_mapData]
      · rw [detailAccum_mapData]
        show ((teammatesAccum _ _ _ _).mapData.lookup _).isSome
        rw [teammatesAccum_mapData]
        show ((objEnsure (personalAccum _ _).mapData _ _).lookup _).isSome
        exact lookup_objEnsure_self _ _ _

/-- The whole-loop version of `processMatch_proj`, by induction over the
history with a generalized starting state. -/
lemma loopFold_proj (pid : String) (msm : List (String × MatchStats)) :
    ∀ (history : List HistoryItem) (st : LoopState),
      (history.foldl (processMatch pid msm) st).count
        = st.count + (history.filter (fun m => personalPresent pid msm m)).length ∧
      (history.foldl (processMatch pid msm) st).matchResults.length
        = st.matchResults.length + (history.filter (fun m => statsPresent msm m)).length ∧
      (history.foldl (processMatch pid msm) st).detailedHistory.map (·.matchId)
        = st.detailedHistory.map (·.matchId)
          ++ (history.filter (fun m => personalPresent pid msm m)).map (·.match_id) ∧
      mapMatchesSum (history.foldl (processMatch pid msm) st).mapData
        = mapMatchesSum st.mapData + (history.filter (fun m => statsPresent msm m)).length := by
  intro history
  induction history with
  | nil => intro st; simp
  | cons m t ih =>
    intro st
    rw [List.foldl_cons]
    obtain ⟨h1, h2, h3, h4⟩ := ih (processMatch pid msm st m)
    obtain ⟨g1, g2, g3, g4⟩ := processMatch_proj pid msm st m
    by_cases hp : personalPresent pid msm m <;> by_cases hs : statsPresent msm m <;>
      refine ⟨?_, ?_, ?_, ?_⟩ <;>
        simp [h1, h2, h3, h4, g1, g2, g3, g4, List.filter_cons, hp, hs] <;> omega

/-! ## Permutation facts about the map-performance sort -/

lemma insertByMatchesDesc_perm (x : MapPerfEntry) :
    ∀ l : List MapPerfEntry, List.Perm (insertByMatchesDesc x l) (x :: l) := by
  intro l
  induction l with
  | nil => exact List.Perm.refl _
  | cons y ys ih =>
    unfold insertByMatchesDesc
    split
    · exact (ih.cons y).trans (List.Perm.swap x y ys)
    · exact List.Perm.refl _

lemma sortByMatchesDesc_perm (l : List MapPerfEntry) :
    List.Perm (sortByMatchesDesc l) l := by
  induction l with
  | nil => exact List.Perm.refl _
  | cons x xs ih =>
    unfold sortByMatchesDesc
    rw [List.foldr_cons]
    exact (insertByMatchesDesc_perm x _).trans (ih.cons x)

/-! ## C1: map-table match-count sum -/

/-- Counterexample to C1 as stated: a history item whose match id has no
entry at all in the stats map is skipped entirely (`if (!stats) continue`),
so it contributes to no map bucket and the `matches` sum falls short of the
history length. -/
theorem C1_counterexample :
    (((calculatePlayerStats "p" [⟨"m1", 100, none, none⟩] [] []).mapPerformance.map
        (·.«matches»)).sum)
      ≠ ([(⟨"m1", 100, none, none⟩ : HistoryItem)]).length := by
  decide

/-- C1 amended: for a non-empty player id, the sum of the `matches` field
over all `mapPerformance` entries equals the number of history items whose
match id has an entry in the per-match stats map (map-name-only
placeholders included, each such item lands in exactly one bucket,
defaulting to "Unknown"); items with no entry at all are skipped. -/
theorem C1_mapPerformance_sum (pid : String) (hpid : pid ≠ "") (history : List HistoryItem)
    (msm : List (String × MatchStats)) (ext : List RawEloItem) :
    ((calculatePlayerStats pid history msm ext).mapPerformance.map (·.«matches»)).sum
      = (history.filter (fun m => statsPresent msm m)).length := by
  have hmp : (calculatePlayerStats pid history msm ext).mapPerformance
      = sortByMatchesDesc ((loopStateOf pid history msm).mapData.map buildMapPerf) := by
    unfold calculatePlayerStats
    rw [if_neg hpid]
  rw [hmp]
  have hperm := (sortByMatchesDesc_perm
    ((loopStateOf pid history msm).mapData.map buildMapPerf)).map (·.«matches»)
  rw [hperm.sum_eq, List.map_map]
  have hsum := (loopFold_proj pid msm history initState).2.2.2
  unfold loopStateOf
  simpa [mapMatchesSum, initState, Function.comp] using hsum

/-- A witness input block shared by the aggregator witnesses: two wins on
`de_mirage`, one with full personal stats and one placeholder. -/
def wTeamList : List (String × Team) :=
  [("faction1", ⟨some [⟨"p", some "P", none, none⟩, ⟨"q", some "Q", none, none⟩]⟩)]

def wItem1 : HistoryItem := ⟨"m1", 100, some wTeamList, some ⟨some "faction1"⟩⟩

def wItem2 : HistoryItem := ⟨"m2", 90, some wTeamList, some ⟨some "faction1"⟩⟩

def wPs1 : PlayerMatchStats :=
  ⟨some 20, some 10, some 1, some 80, some 10, none, some 2, some 30⟩

def wStats1 : MatchStats := ⟨some "de_mirage", some "13 - 7", [("p", wPs1)]⟩

def wPlaceholder : MatchStats := ⟨some "Unknown", none, []⟩

def wMsm : List (String × MatchStats) := [("m1", wStats1), ("m2", wPlaceholder)]

/-- Witness for C1: both items have stats entries (one a placeholder), so
the `matches` sum is 2. -/
theorem C1_mapPerformance_sum_witness :
    ((calculatePlayerStats "p" [wItem1, wItem2] wMsm []).mapPerformance.map
        (·.«matches»)).sum
      = ([wItem1, wItem2].filter (fun m => statsPresent wMsm m)).length :=
  C1_mapPerformance_sum "p" (by decide) [wItem1, wItem2] wMsm []

/-! ## C2: the recent winrate percentage -/

unseal Rat.add Rat.mul Rat.inv Rat.sub in
/-- Counterexample to C2 as stated: with one full-stats win and one
placeholder win, the outcome sequence has two entries and two wins, so the
claimed formula gives round(2/2*100) = 100, but the code divides by the
processed-match counter (1) and returns 200. -/
theorem C2_counterexample :
    ¬ ((calculatePlayerStats "p" [wItem1, wItem2] wMsm []).recent.winratePct
        = jsRound ((((matchResultsOf "p" [wItem1, wItem2] wMsm).filter
              (fun r => r = "W")).length : Rat)
            / ((matchResultsOf "p" [wItem1, wItem2] wMsm).length : Rat) * 100)) := by
  decide

/-- C2 amended: `recent.winratePct` equals round(wins / count * 100) where
`wins` counts the `"W"` entries of the whole outcome sequence but `count`
is the number of history items with a personal per-match stats entry (0
yielding winratePct 0); matches whose entry is a placeholder contribute to
`wins` but not to the denominator. -/
theorem C2_winratePct (pid : String) (hpid : pid ≠ "") (history : List HistoryItem)
    (msm : List (String × MatchStats)) (ext : List RawEloItem) :
    (calculatePlayerStats pid history msm ext).recent.winratePct
      = (if (history.filter (fun m => personalPresent pid msm m)).length ≠ 0 then
          jsRound ((((matchResultsOf pid history msm).filter (fun r => r = "W")).length : Rat)
            / (((history.filter (fun m => personalPresent pid msm m)).length : Rat)) * 100)
        else 0) := by
  have hc : (loopStateOf pid history msm).count
      = (history.filter (fun m => personalPresent pid msm m)).length := by
    have := (loopFold_proj pid msm history initState).1
    unfold loopStateOf
    simpa [initState] using this
  have hw : (calculatePlayerStats pid history msm ext).recent.winratePct
      = (if (loopStateOf pid history msm).count ≠ 0 then
          jsRound ((((loopStateOf pid history msm).matchResults.filter
              (fun r => r = "W")).length : Rat)
            / (((loopStateOf pid history msm).count : Rat)) * 100)
        else 0) := by
    unfold calculatePlayerStats
    rw [if_neg hpid]
  rw [hw, hc]
  rfl

/-- Witness for C2 amended: the placeholder-win input gives winratePct
round(2/1*100) = 200. -/
theorem C2_winratePct_witness :
    (calculatePlayerStats "p" [wItem1, wItem2] wMsm []).recent.winratePct
      = (if ([wItem1, wItem2].filter (fun m => personalPresent "p" wMsm m)).length ≠ 0 then
          jsRound ((((matchResultsOf "p" [wItem1, wItem2] wMsm).filter
              (fun r => r = "W")).length : Rat)
            / ((([wItem1, wItem2].filter (fun m => personalPresent "p" wMsm m)).length : Rat))
            * 100)
        else 0) :=
  C2_winratePct "p" (by decide) [wItem1, wItem2] wMsm []

/-! ## C9: the detail log matches the personal-stats items -/

/-- C9: the `matchHistory` detail log has exactly one record per history
item with a personal stats entry (in order, by match id), so its length
equals `recent.matches`; placeholder items still contribute an outcome
symbol (one per item with any stats entry) but no detail record. -/
theorem C9_matchHistory (pid : String) (hpid : pid ≠ "") (history : List HistoryItem)
    (msm : List (String × MatchStats)) (ext : List RawEloItem) :
    (calculatePlayerStats pid history msm ext).matchHistory.map (·.matchId)
      = (history.filter (fun m => personalPresent pid msm m)).map (·.match_id) ∧
    (calculatePlayerStats pid history msm ext).matchHistory.length
      = (calculatePlayerStats pid history msm ext).recent.«matches» ∧
    (matchResultsOf pid history msm).length
      = (history.filter (fun m => statsPresent msm m)).length := by
  have hmh : (calculatePlayerStats pid history msm ext).matchHistory
      = (loopStateOf pid history msm).detailedHistory := by
    unfold calculatePlayerStats
    rw [if_neg hpid]
  have hrm : (calculatePlayerStats pid history msm ext).recent.«matches»
      = (loopStateOf pid history msm).count := by
    unfold calculatePlayerStats
    rw [if_neg hpid]
  obtain ⟨f1, f2, f3, _⟩ := loopFold_proj pid msm history initState
  have hids : (loopStateOf pid history msm).detailedHistory.map (·.matchId)
      = (history.filter (fun m => personalPresent pid msm m)).map (·.match_id) := by
    unfold loopStateOf
    simpa [initState] using f3
  refine ⟨by rw [hmh]; exact hids, ?_, ?_⟩
  · have hlen := congrArg List.length hids
    rw [List.length_map, List.length_map] at hlen
    rw [hmh, hrm, hlen]
    unfold loopStateOf
    simpa [initState] using f1.symm
  · unfold matchResultsOf loopStateOf
    simpa [initState] using f2

/-- Witness for C9 at the shared concrete input: one detail record (the
full-stats item), `recent.matches` 1, two outcome symbols. -/
theorem C9_matchHistory_witness :
    (calculatePlayerStats "p" [wItem1, wItem2] wMsm []).matchHistory.map (·.matchId)
      = ([wItem1, wItem2].filter (fun m => personalPresent "p" wMsm m)).map (·.match_id) ∧
    (calculatePlayerStats "p" [wItem1, wItem2] wMsm []).matchHistory.length
      = (calculatePlayerStats "p" [wItem1, wItem2] wMsm []).recent.«matches» ∧
    (matchResultsOf "p" [wItem1, wItem2] wMsm).length
      = ([wItem1, wItem2].filter (fun m => statsPresent wMsm m)).length :=
  C9_matchHistory "p" (by decide) [wItem1, wItem2] wMsm []

/-! ## C8: the win/loss streak -/

lemma takeWhile_all {α : Type} (p : α → Bool) :
    ∀ (l : List α) (i : Nat), i < (l.takeWhile p).length →
      ∃ x, l[i]? = some x ∧ p x = true := by
  intro l
  induction l with
  | nil => intro i hi; simp [List.takeWhile] at hi
  | cons a t ih =>
    intro i hi
    by_cases h : p a
    · rw [List.takeWhile_cons_of_pos h] at hi
      cases i with
      | zero => exact ⟨a, by simp, h⟩
      | succ j =>
        obtain ⟨x, hx, hpx⟩ := ih j (by simpa using hi)
        exact ⟨x, by simpa using hx, hpx⟩
    · rw [List.takeWhile_cons_of_neg h] at hi
      simp at hi

lemma takeWhile_next {α : Type} (p : α → Bool) :
    ∀ (l : List α) (x : α), l[(l.takeWhile p).length]? = some x → p x = false := by
  intro l
  induction l with
  | nil => intro x hx; simp at hx
  | cons a t ih =>
    intro x hx
    by_cases h : p a
    · rw [List.takeWhile_cons_of_pos h] at hx
      simp only [List.length_cons, List.getElem?_cons_succ] at hx
      exact ih x hx
    · rw [List.takeWhile_cons_of_neg h] at hx
      simp only [List.length_nil, List.getElem?_cons_zero, Option.some.injEq] at hx
      rw [hx] at h
      exact Bool.of_not_eq_true h

/-- C8: on a non-empty outcome sequence, `streak.count` counts the
consecutive entries at the head equal to the first entry and `streak.type`
is "win" exactly when the first entry is "W"; the first `streak.count`
outcomes all equal `last5`'s head and the following outcome, if present,
differs; an empty sequence gives `{none, 0}`. -/
theorem C8_streak_spec (pid : String) (history : List HistoryItem)
    (msm : List (String × MatchStats)) (ext : List RawEloItem) (hpid : pid ≠ "") :
    (matchResultsOf pid history msm = [] →
      (calculatePlayerStats pid history msm ext).streak = ⟨"none", 0⟩) ∧
    (∀ f rest, matchResultsOf pid history msm = f :: rest →
      (calculatePlayerStats pid history msm ext).streak.type
          = (if f = "W" then "win" else "loss") ∧
      (calculatePlayerStats pid history msm ext).streak.count
          = ((matchResultsOf pid history msm).takeWhile (fun r => r = f)).length ∧
      (calculatePlayerStats pid history msm ext).last5.head? = some f ∧
      (∀ i, i < (calculatePlayerStats pid history msm ext).streak.count →
        (matchResultsOf pid history msm)[i]? = some f) ∧
      (∀ x,
        (matchResultsOf pid history msm)[(calculatePlayerStats pid history msm
          ext).streak.count]? = some x → x ≠ f)) := by
  have hstreak : (calculatePlayerStats pid history msm ext).streak
      = (match matchResultsOf pid history msm with
          | [] => (⟨"none", 0⟩ : Streak)
          | first :: _ =>
            ⟨if first = "W" then "win" else "loss",
              ((matchResultsOf pid history msm).takeWhile (fun r => r = first)).length⟩) := by
    unfold calculatePlayerStats matchResultsOf
    rw [if_neg hpid]
  have hlast5 : (calculatePlayerStats pid history msm ext).last5
      = (matchResultsOf pid history msm).take 5 := by
    unfold calculatePlayerStats matchResultsOf
    rw [if_neg hpid]
  constructor
  · intro h
    rw [hstreak, h]
  · intro f rest hseq
    have hst2 : (calculatePlayerStats pid history msm ext).streak
        = ⟨if f = "W" then "win" else "loss",
            ((f :: rest).takeWhile (fun r => r = f)).length⟩ := by
      rw [hstreak, hseq]
    refine ⟨by rw [hst2], by rw [hst2, hseq], ?_, ?_, ?_⟩
    · rw [hlast5, hseq]
      rfl
    · intro i hi
      rw [hst2] at hi
      rw [hseq]
      obtain ⟨x, hx, hpx⟩ := takeWhile_all (fun r => decide (r = f)) (f :: rest) i hi
      rw [hx]
      have hxf : x = f := of_decide_eq_true hpx
      rw [hxf]
    · intro x hx
      rw [hst2, hseq] at hx
      have := takeWhile_next (fun r => decide (r = f)) (f :: rest) x hx
      exact of_decide_eq_false this

/-- Witness for C8: the two-win input gives streak type "win" with count
equal to the takeWhile length (2). -/
theorem C8_streak_spec_witness :
    (calculatePlayerStats "p" [wItem1, wItem2] wMsm []).streak.type = "win" ∧
    (calculatePlayerStats "p" [wItem1, wItem2] wMsm []).streak.count
      = ((matchResultsOf "p" [wItem1, wItem2] wMsm).takeWhile (fun r => r = "W")).length := by
  have h := (C8_streak_spec "p" [wItem1, wItem2] wMsm [] (by decide)).2 "W" ["W"] (by decide)
  exact ⟨h.1.trans (by decide), h.2.1⟩

/-! ## C10: teammate rows -/

/-- Counter lookup with JavaScript's `|| 0` default. -/
def lookupNat (m : List (String × Nat)) (k : String) : Nat := (m.lookup k).getD 0

lemma lookup_objUpdate_self {α : Type} (k : String) (f : α → α) :
    ∀ m : List (String × α), ((objUpdate m k f).lookup k) = (m.lookup k).map f := by
  intro m
  induction m with
  | nil => rfl
  | cons a t ih =>
    unfold objUpdate
    split
    · rename_i hk
      rw [lookup_cons_self (a.1, f a.2) t k hk, lookup_cons_self a t k hk]
      rfl
    · rename_i hk
      rw [lookup_cons_ne _ _ _ hk, lookup_cons_ne _ _ _ hk, ih]

lemma lookup_objUpdate_ne {α : Type} (k : String) (f : α → α) (q : String) (hq : q ≠ k) :
    ∀ m : List (String × α), ((objUpdate m k f).lookup q) = m.lookup q := by
  intro m
  induction m with
  | nil => rfl
  | cons a t ih =>
    unfold objUpdate
    split
    · rename_i hk
      have hne : ¬ a.1 = q := fun e => hq (e ▸ hk)
      rw [lookup_cons_ne _ _ _ (by simpa using hne), lookup_cons_ne _ _ _ hne]
    · rename_i hk
      by_cases ha : a.1 = q
      · rw [lookup_cons_self _ _ _ ha, lookup_cons_self _ _ _ ha]
      · rw [lookup_cons_ne _ _ _ ha, lookup_cons_ne _ _ _ ha, ih]

lemma lookup_append_single_ne {α : Type} (k : String) (v : α) (q : String) (hq : q ≠ k) :
    ∀ m : List (String × α), ((m ++ [(k, v)]).lookup q) = m.lookup q := by
  intro m
  induction m with
  | nil =>
    show ([(k, v)].lookup q) = none
    rw [lookup_cons_ne _ _ _ (fun e => hq e.symm)]
    rfl
  | cons a t ih =>
    by_cases ha : a.1 = q
    · rw [List.cons_append, lookup_cons_self _ _ _ ha, lookup_cons_self _ _ _ ha]
    · rw [List.cons_append, lookup_cons_ne _ _ _ ha, lookup_cons_ne _ _ _ ha, ih]

lemma lookupNat_objIncr_self (m : List (String × Nat)) (k : String) :
    lookupNat (objIncr m k) k = lookupNat m k + 1 := by
  unfold objIncr lookupNat
  split
  · rename_i h
    rw [lookup_objUpdate_self]
    obtain ⟨v, hv⟩ := Option.isSome_iff_exists.mp h
    rw [hv]
    rfl
  · rename_i h
    rw [lookup_append_single]
    have : m.lookup k = none := Option.not_isSome_iff_eq_none.mp h
    rw [this]
    rfl

lemma lookupNat_objIncr_ne (m : List (String × Nat)) (k q : String) (hq : q ≠ k) :
    lookupNat (objIncr m k) q = lookupNat m q := by
  unfold objIncr lookupNat
  split
  · rw [lookup_objUpdate_ne _ _ _ hq]
  · rw [lookup_append_single_ne _ _ _ hq]

lemma keys_objUpdate {α : Type} (k : String) (f : α → α) :
    ∀ m : List (String × α), (objUpdate m k f).map Prod.fst = m.map Prod.fst := by
  intro m
  induction m with
  | nil => rfl
  | cons a t ih =>
    unfold objUpdate
    split
    · rfl
    · show a.1 :: (objUpdate t k f).map Prod.fst = a.1 :: t.map Prod.fst
      rw [ih]

lemma not_mem_keys_of_lookup_none {α : Type} (k : String) :
    ∀ m : List (String × α), m.lookup k = none → k ∉ m.map Prod.fst := by
  intro m
  induction m with
  | nil => intro _ h; simp at h
  | cons a t ih =>
    intro hnone hmem
    by_cases ha : a.1 = k
    · rw [lookup_cons_self _ _ _ ha] at hnone
      exact Option.noConfusion hnone
    · rw [lookup_cons_ne _ _ _ ha] at hnone
      rcases List.mem_cons.mp hmem with h | h
      · exact ha h.symm
      · exact ih hnone h

lemma nodup_keys_objIncr (m : List (String × Nat)) (k : String)
    (h : (m.map Prod.fst).Nodup) : ((objIncr m k).map Prod.fst).Nodup := by
  unfold objIncr
  split
  · rw [keys_objUpdate]
    exact h
  · rename_i hns
    have hnone : m.lookup k = none := Option.not_isSome_iff_eq_none.mp hns
    have hnm := not_mem_keys_of_lookup_none k m hnone
    simp [List.nodup_append, h, hnm]

lemma lookup_eq_of_mem_nodup {α : Type} (k : String) (v : α) :
    ∀ m : List (String × α), ((m.map Prod.fst).Nodup) → (k, v) ∈ m →
      m.lookup k = some v := by
  intro m
  induction m with
  | nil => intro _ h; simp at h
  | cons a t ih =>
    intro hnd hmem
    rcases List.mem_cons.mp hmem with h | h
    · rw [lookup_cons_self _ _ _ (by rw [← h])]
      rw [← h]
    · have hkeys : k ∈ t.map Prod.fst := List.mem_map.mpr ⟨(k, v), h, rfl⟩
      rw [List.map_cons] at hnd
      have hna : a.1 ∉ t.map Prod.fst := (List.nodup_cons.mp hnd).1
      have hne : ¬ a.1 = k := fun e => hna (e ▸ hkeys)
      rw [lookup_cons_ne _ _ _ hne]
      exact ih (List.nodup_cons.mp hnd).2 h

/-- The teammate-table invariant maintained by the loop: counter keys are
unique, and every played-together count splits exactly into wins plus
losses. -/
def TmInv (st : LoopState) : Prop :=
  ((st.teammateCounts.map Prod.fst).Nodup) ∧
  ∀ k, lookupNat st.teammateCounts k
      = lookupNat st.teammateWins k + lookupNat st.teammateLosses k

lemma teammateStep_inv (pid : String) (w : Bool) (st : LoopState) (p : TeamPlayer)
    (h : TmInv st) : TmInv (teammateStep pid w st p) := by
  unfold teammateStep
  split
  · exact h
  · obtain ⟨hnd, hbal⟩ := h
    split
    · refine ⟨nodup_keys_objIncr _ _ hnd, ?_⟩
      intro k
      show lookupNat (objIncr st.teammateCounts p.player_id) k
          = lookupNat (objIncr st.teammateWins p.player_id) k
            + lookupNat st.teammateLosses k
      by_cases hk : k = p.player_id
      · rw [hk, lookupNat_objIncr_self, lookupNat_objIncr_self]
        have := hbal p.player_id
        omega
      · rw [lookupNat_objIncr_ne _ _ _ hk, lookupNat_objIncr_ne _ _ _ hk]
        exact hbal k
    · refine ⟨nodup_keys_objIncr _ _ hnd, ?_⟩
      intro k
      show lookupNat (objIncr st.teammateCounts p.player_id) k
          = lookupNat st.teammateWins k
            + lookupNat (objIncr st.teammateLosses p.player_id) k
      by_cases hk : k = p.player_id
      · rw [hk, lookupNat_objIncr_self, lookupNat_objIncr_self]
        have := hbal p.player_id
        omega
      · rw [lookupNat_objIncr_ne _ _ _ hk, lookupNat_objIncr_ne _ _ _ hk]
        exact hbal k

lemma tmFold_inv (pid : String) (w : Bool) :
    ∀ (ps : List TeamPlayer) (st : LoopState), TmInv st →
      TmInv (ps.foldl (teammateStep pid w) st) := by
  intro ps
  induction ps with
  | nil => exact fun st h => h
  | cons a t ih =>
    intro st h
    rw [List.foldl_cons]
    exact ih _ (teammateStep_inv pid w st a h)

/-- `TmInv` only looks at the three teammate counter tables. -/
lemma TmInv_congr (a b : LoopState) (h1 : a.teammateCounts = b.teammateCounts)
    (h2 : a.teammateWins = b.teammateWins) (h3 : a.teammateLosses = b.teammateLosses) :
    TmInv a ↔ TmInv b := by
  unfold TmInv
  rw [h1, h2, h3]

lemma personalAccum_teammates (ps : Option PlayerMatchStats) (st : LoopState) :
    (personalAccum ps st).teammateCounts = st.teammateCounts ∧
    (personalAccum ps st).teammateWins = st.teammateWins ∧
    (personalAccum ps st).teammateLosses = st.teammateLosses := by
  cases ps <;> exact ⟨rfl, rfl, rfl⟩

lemma detailAccum_teammates (ps : Option PlayerMatchStats) (w : Bool) (mn : String)
    (stats : MatchStats) (m : HistoryItem) (st : LoopState) :
    (detailAccum ps w mn stats m st).teammateCounts = st.teammateCounts ∧
    (detailAccum ps w mn stats m st).teammateWins = st.teammateWins ∧
    (detailAccum ps w mn stats m st).teammateLosses = st.teammateLosses := by
  cases ps <;> exact ⟨rfl, rfl, rfl⟩

lemma mapAccum_teammates (ps : Option PlayerMatchStats) (w : Bool) (mn : String)
    (st : LoopState) :
    (mapAccum ps w mn st).teammateCounts = st.teammateCounts ∧
    (mapAccum ps w mn st).teammateWins = st.teammateWins ∧
    (mapAccum ps w mn st).teammateLosses = st.teammateLosses := by
  cases ps <;> exact ⟨rfl, rfl, rfl⟩

lemma teammatesAccum_inv (pid : String) (w : Bool) (m : HistoryItem) (st : LoopState)
    (h : TmInv st) : TmInv (teammatesAccum pid w m st) := by
  unfold teammatesAccum
  split
  · split
    · exact h
    · split
      · exact tmFold_inv _ _ _ _ h
      · exact h
  · exact h

lemma processMatch_inv (pid : String) (msm : List (String × MatchStats))
    (st : LoopState) (m : HistoryItem) (h : TmInv st) :
    TmInv (processMatch pid msm st m) := by
  unfold processMatch
  cases hlook : msm.lookup m.match_id with
  | none => exact h
  | some stats =>
    obtain ⟨p1, p2, p3⟩ := personalAccum_teammates (stats.players.lookup pid) st
    have h1 : TmInv (personalAccum (stats.players.lookup pid) st) :=
      (TmInv_congr _ _ p1 p2 p3).mpr h
    have h2 := teammatesAccum_inv pid (didWinOf pid m) m
      { personalAccum (stats.players.lookup pid) st with
          mapData := objEnsure (personalAccum (stats.players.lookup pid) st).mapData
            (getMapName stats.mapName) ⟨0, 0, 0, 0, 0⟩ }
      ((TmInv_congr _ _ rfl rfl rfl).mpr h1)
    obtain ⟨d1, d2, d3⟩ := detailAccum_teammates (stats.players.lookup pid)
      (didWinOf pid m) (getMapName stats.mapName) stats m _
    obtain ⟨a1, a2, a3⟩ := mapAccum_teammates (stats.players.lookup pid)
      (didWinOf pid m) (getMapName stats.mapName) _
    refine (TmInv_congr _ _ (a1.trans d1) (a2.trans d2) (a3.trans d3)).mpr ?_
    exact (TmInv_congr _ _ rfl rfl rfl).mpr h2

lemma initState_inv : TmInv initState :=
  ⟨by simp [initState], fun _ => rfl⟩

lemma loopFold_inv (pid : String) (msm : List (String × MatchStats)) :
    ∀ (history : List HistoryItem) (st : LoopState), TmInv st →
      TmInv (history.foldl (processMatch pid msm) st) := by
  intro history
  induction history with
  | nil => exact fun st h => h
  | cons m t ih =>
    intro st h
    rw [List.foldl_cons]
    exact ih _ (processMatch_inv pid msm st m h)

unseal Rat.add Rat.mul Rat.inv Rat.sub in
lemma jsRound_zero : jsRound 0 = 0 := by
  decide

/-- C10: every returned teammate row satisfies count = wins + losses and
winratePct = round(wins / count * 100), and has a resolvable nickname
(non-empty and not the placeholder dash). -/
theorem C10_teammate_rows (pid : String) (history : List HistoryItem)
    (msm : List (String × MatchStats)) (ext : List RawEloItem) (e : TeammateEntry)
    (he : e ∈ (calculatePlayerStats pid history msm ext).teammates) :
    e.count = e.wins + e.losses ∧
    e.winratePct = jsRound ((e.wins : Rat) / (e.count : Rat) * 100) ∧
    e.nickname ≠ "" ∧ e.nickname ≠ "—" := by
  by_cases hpid : pid = ""
  · rw [hpid] at he
    simp [calculatePlayerStats, emptyStats] at he
  · have hexpand : (calculatePlayerStats pid history msm ext).teammates
        = ((loopStateOf pid history msm).teammateCounts.map
            (buildTeammate (loopStateOf pid history msm))).filter
            (fun p => p.nickname ≠ "" ∧ p.nickname ≠ "—") := by
      unfold calculatePlayerStats
      rw [if_neg hpid]
    rw [hexpand] at he
    obtain ⟨he', hpred⟩ := List.mem_filter.mp he
    obtain ⟨ic, hic, hbe⟩ := List.mem_map.mp he'
    have hinv : TmInv (loopStateOf pid history msm) :=
      loopFold_inv pid msm history initState initState_inv
    obtain ⟨hnd, hbal⟩ := hinv
    have hic' : (ic.1, ic.2) ∈ (loopStateOf pid history msm).teammateCounts := by
      simpa using hic
    have hlk := lookup_eq_of_mem_nodup ic.1 ic.2 _ hnd hic'
    have hcnt : lookupNat (loopStateOf pid history msm).teammateCounts ic.1 = ic.2 := by
      unfold lookupNat
      rw [hlk]
      rfl
    have hbal' := hbal ic.1
    rw [hcnt] at hbal'
    subst hbe
    have hnick : (buildTeammate (loopStateOf pid history msm) ic).nickname ≠ "" ∧
        (buildTeammate (loopStateOf pid history msm) ic).nickname ≠ "—" := by
      have := of_decide_eq_true hpred
      exact this
    refine ⟨?_, ?_, hnick.1, hnick.2⟩
    · show ic.2 = (((loopStateOf pid history msm).teammateWins.lookup ic.1).getD 0)
          + (((loopStateOf pid history msm).teammateLosses.lookup ic.1).getD 0)
      exact hbal'
    · show (if ic.2 ≠ 0 then
            jsRound (((((loopStateOf pid history msm).teammateWins.lookup ic.1).getD 0 : Nat) :
              Rat) / ((ic.2 : Nat) : Rat) * 100)
          else 0)
        = jsRound (((((loopStateOf pid history msm).teammateWins.lookup ic.1).getD 0 : Nat) :
            Rat) / ((ic.2 : Nat) : Rat) * 100)
      by_cases hz : ic.2 = 0
      · rw [if_neg (by simpa using hz), hz]
        have hw0 : lookupNat (loopStateOf pid history msm).teammateWins ic.1 = 0 := by
          omega
        unfold lookupNat at hw0
        rw [hw0]
        norm_num [jsRound_zero]
      · rw [if_pos hz]

unseal Rat.add Rat.mul Rat.inv Rat.sub in
/-- Witness for C10: the single teammate row of the shared concrete input
(teammate "q", 2 games, 2 wins). -/
theorem C10_teammate_rows_witness :
    ((calculatePlayerStats "p" [wItem1, wItem2] wMsm []).teammates.getD 0
        ⟨"", "", "", none, 0, 0, 0, 0, ""⟩).count
      = ((calculatePlayerStats "p" [wItem1, wItem2] wMsm []).teammates.getD 0
        ⟨"", "", "", none, 0, 0, 0, 0, ""⟩).wins
        + ((calculatePlayerStats "p" [wItem1, wItem2] wMsm []).teammates.getD 0
          ⟨"", "", "", none, 0, 0, 0, 0, ""⟩).losses :=
  (C10_teammate_rows "p" [wItem1, wItem2] wMsm []
    ((calculatePlayerStats "p" [wItem1, wItem2] wMsm []).teammates.getD 0
      ⟨"", "", "", none, 0, 0, 0, 0, ""⟩) (by decide)).1

end FaceitDash

namespace FaceitDash

/-! ## C4: idempotence of the repair pass -/

lemma find?_append {α : Type} (p : α → Bool) :
    ∀ l1 l2 : List α, (l1 ++ l2).find? p = ((l1.find? p).orElse fun _ => l2.find? p) := by
  intro l1 l2
  induction l1 with
  | nil => rfl
  | cons a t ih =>
    by_cases h : p a
    · rw [List.cons_append, List.find?_cons_of_pos _ h, List.find?_cons_of_pos _ h]
      rfl
    · rw [List.cons_append, List.find?_cons_of_neg _ h, List.find?_cons_of_neg _ h, ih]

lemma lastElo?_append_of_some (l1 l2 : List SnapshotRow) (pid : String) (e : Int)
    (h : lastElo? l2 pid = some e) : lastElo? (l1 ++ l2) pid = some e := by
  unfold lastElo? at *
  rw [List.reverse_append, find?_append]
  cases hf : l2.reverse.find? (fun r => r.playerId = pid) with
  | none => rw [hf] at h; exact Option.noConfusion h
  | some r => rw [hf] at h; rw [Option.orElse]; exact h

lemma lastElo?_append_of_none (l1 l2 : List SnapshotRow) (pid : String)
    (h : lastElo? l2 pid = none) : lastElo? (l1 ++ l2) pid = lastElo? l1 pid := by
  unfold lastElo? at *
  rw [List.reverse_append, find?_append]
  cases hf : l2.reverse.find? (fun r => r.playerId = pid) with
  | none => rw [Option.orElse]
  | some r => rw [hf] at h; exact Option.noConfusion h

lemma lastElo?_single_self (r : SnapshotRow) (pid : String) (h : r.playerId = pid) :
    lastElo? [r] pid = some r.elo := by
  unfold lastElo?
  rw [List.reverse_singleton, List.find?_cons_of_pos _ (by simpa using h)]
  rfl

lemma lastElo?_single_ne (r : SnapshotRow) (pid : String) (h : r.playerId ≠ pid) :
    lastElo? [r] pid = none := by
  unfold lastElo?
  rw [List.reverse_singleton, List.find?_cons_of_neg _ (by simpa using h)]
  rfl

lemma lastElo?_eq_none_of_all_ne (l : List SnapshotRow) (pid : String)
    (h : ∀ r ∈ l, r.playerId ≠ pid) : lastElo? l pid = none := by
  unfold lastElo?
  rw [List.find?_eq_none.mpr]
  · rfl
  · intro r hr
    simpa using h r (List.mem_reverse.mp hr)

lemma find?_setFirstElo_self (pid : String) (e : Int) :
    ∀ rows : List SnapshotRow,
      ((rows.find? (fun r => r.playerId = pid)).isSome) →
      (setFirstElo pid e rows).find? (fun r => r.playerId = pid) = some ⟨pid, e⟩ := by
  intro rows
  induction rows with
  | nil => intro h; simp at h
  | cons r rest ih =>
    intro h
    by_cases hr : r.playerId = pid
    · rw [setFirstElo, if_pos hr,
        List.find?_cons_of_pos _ (by simpa using hr)]
      rw [hr]
    · rw [setFirstElo, if_neg hr, List.find?_cons_of_neg _ (by simpa using hr)]
      rw [List.find?_cons_of_neg _ (by simpa using hr)] at h
      exact ih h

lemma find?_setFirstElo_ne (pid : String) (e : Int) (q : String) (hq : q ≠ pid) :
    ∀ rows : List SnapshotRow,
      (setFirstElo pid e rows).find? (fun r => r.playerId = q)
        = rows.find? (fun r => r.playerId = q) := by
  intro rows
  induction rows with
  | nil => rfl
  | cons r rest ih =>
    by_cases hr : r.playerId = pid
    · have hne : ¬ r.playerId = q := fun hc => hq (hc ▸ hr.symm ▸ rfl)
      rw [setFirstElo, if_pos hr, List.find?_cons_of_neg _ (by simpa using hne),
        List.find?_cons_of_neg _ (by simpa using hne)]
    · rw [setFirstElo, if_neg hr]
      by_cases hc : r.playerId = q
      · rw [List.find?_cons_of_pos _ (by simpa using hc),
          List.find?_cons_of_pos _ (by simpa using hc)]
      · rw [List.find?_cons_of_neg _ (by simpa using hc),
          List.find?_cons_of_neg _ (by simpa using hc), ih]

lemma lastElo?_setLastElo_self (rows : List SnapshotRow) (pid : String) (e : Int)
    (h : (lastElo? rows pid).isSome) :
    lastElo? (setLastElo rows pid e) pid = some e := by
  unfold lastElo? at *
  unfold setLastElo
  rw [List.reverse_reverse]
  have hsome : ((rows.reverse.find? (fun r => r.playerId = pid)).isSome) := by
    cases hf : rows.reverse.find? (fun r => r.playerId = pid) with
    | none => rw [hf] at h; simp at h
    | some r => rfl
  rw [find?_setFirstElo_self pid e rows.reverse hsome]
  rfl

lemma lastElo?_setLastElo_ne (rows : List SnapshotRow) (pid : String) (e : Int)
    (q : String) (hq : q ≠ pid) :
    lastElo? (setLastElo rows pid e) q = lastElo? rows q := by
  unfold lastElo? setLastElo
  rw [List.reverse_reverse, find?_setFirstElo_ne pid e q hq]

end FaceitDash

namespace FaceitDash

/-- After a repair pass, each processed player should have a last row whose
elo matches their live rating whenever they were inactive this period. -/
def GoodRow (ts : Int) (p : PlayerResult) (T : List SnapshotRow) : Prop :=
  ∃ e, lastElo? T p.playerId = some e ∧ (playedInPeriod p ts = false → e = p.elo)

lemma repairStep_eq_push (ts : Int) (st : RepairState) (q : PlayerResult)
    (h : lastElo? st.base q.playerId = none) :
    repairStep ts st q =
      { st with
          extra := st.extra ++
            [⟨q.playerId, if playedInPeriod q ts then findEloAt q ts else q.elo⟩]
          changed := true } := by
  unfold repairStep
  rw [h]

lemma repairStep_eq_mut (ts : Int) (st : RepairState) (q : PlayerResult) (e : Int)
    (h : lastElo? st.base q.playerId = some e)
    (hc : ¬ playedInPeriod q ts = true ∧ e ≠ q.elo) :
    repairStep ts st q =
      { st with base := setLastElo st.base q.playerId q.elo, changed := true } := by
  unfold repairStep
  rw [h]
  show (if ¬ playedInPeriod q ts = true ∧ e ≠ q.elo then _ else _) = _
  rw [if_pos hc]

lemma repairStep_eq_skip (ts : Int) (st : RepairState) (q : PlayerResult) (e : Int)
    (h : lastElo? st.base q.playerId = some e)
    (hc : ¬ (¬ playedInPeriod q ts = true ∧ e ≠ q.elo)) :
    repairStep ts st q = st := by
  unfold repairStep
  rw [h]
  show (if ¬ playedInPeriod q ts = true ∧ e ≠ q.elo then _ else _) = _
  rw [if_neg hc]

lemma repairStep_extra (ts : Int) (st : RepairState) (q : PlayerResult) :
    (repairStep ts st q).extra = st.extra ∨
    ∃ c, (repairStep ts st q).extra = st.extra ++ [⟨q.playerId, c⟩] := by
  cases hlq : lastElo? st.base q.playerId with
  | none => exact Or.inr ⟨_, by rw [repairStep_eq_push ts st q hlq]⟩
  | some e =>
    by_cases hc : ¬ playedInPeriod q ts = true ∧ e ≠ q.elo
    · exact Or.inl (by rw [repairStep_eq_mut ts st q e hlq hc])
    · exact Or.inl (by rw [repairStep_eq_skip ts st q e hlq hc])

lemma repairStep_preserves_good (ts : Int) (p : PlayerResult) (q : PlayerResult)
    (hq : q.playerId ≠ p.playerId) (st : RepairState)
    (h : GoodRow ts p (st.base ++ st.extra)) :
    GoodRow ts p ((repairStep ts st q).base ++ (repairStep ts st q).extra) := by
  obtain ⟨e, he, himp⟩ := h
  cases hlq : lastElo? st.base q.playerId with
  | none =>
    rw [repairStep_eq_push ts st q hlq]
    refine ⟨e, ?_, himp⟩
    show lastElo? (st.base ++ (st.extra ++ [⟨q.playerId, _⟩])) p.playerId = some e
    rw [← List.append_assoc,
      lastElo?_append_of_none _ _ _ (lastElo?_single_ne _ _ hq)]
    exact he
  | some e' =>
    by_cases hc : ¬ playedInPeriod q ts = true ∧ e' ≠ q.elo
    · rw [repairStep_eq_mut ts st q e' hlq hc]
      refine ⟨e, ?_, himp⟩
      show lastElo? (setLastElo st.base q.playerId q.elo ++ st.extra) p.playerId = some e
      cases hx : lastElo? st.extra p.playerId with
      | some e2 =>
        rw [lastElo?_append_of_some _ _ _ _ hx]
        rw [lastElo?_append_of_some _ _ _ _ hx] at he
        exact he
      | none =>
        rw [lastElo?_append_of_none _ _ _ hx,
          lastElo?_setLastElo_ne _ _ _ _ (fun hc2 => hq hc2.symm)]
        rw [lastElo?_append_of_none _ _ _ hx] at he
        exact he
    · rw [repairStep_eq_skip ts st q e' hlq hc]
      exact ⟨e, he, himp⟩

lemma repairFold_preserves_good (ts : Int) (p : PlayerResult) :
    ∀ (rs : List PlayerResult) (st : RepairState),
      (∀ q ∈ rs, q.playerId ≠ p.playerId) →
      GoodRow ts p (st.base ++ st.extra) →
      GoodRow ts p ((rs.foldl (repairStep ts) st).base
        ++ (rs.foldl (repairStep ts) st).extra) := by
  intro rs
  induction rs with
  | nil => exact fun st _ h => h
  | cons q rest ih =>
    intro st hne h
    rw [List.foldl_cons]
    exact ih _ (fun q' hq' => hne q' (List.mem_cons_of_mem _ hq'))
      (repairStep_preserves_good ts p q (hne q (List.mem_cons_self _ _)) st h)

lemma repairStep_establishes_good (ts : Int) (p : PlayerResult) (st : RepairState)
    (hx : ∀ r ∈ st.extra, r.playerId ≠ p.playerId) :
    GoodRow ts p ((repairStep ts st p).base ++ (repairStep ts st p).extra) := by
  have hxnone : lastElo? st.extra p.playerId = none :=
    lastElo?_eq_none_of_all_ne _ _ hx
  cases hlq : lastElo? st.base p.playerId with
  | none =>
    rw [repairStep_eq_push ts st p hlq]
    refine ⟨if playedInPeriod p ts then findEloAt p ts else p.elo, ?_, ?_⟩
    · show lastElo? (st.base ++ (st.extra ++ [⟨p.playerId, _⟩])) p.playerId = some _
      rw [← List.append_assoc]
      exact lastElo?_append_of_some _ _ _ _ (lastElo?_single_self _ _ rfl)
    · intro hpl
      rw [hpl]
      rfl
  | some e =>
    by_cases hc : ¬ playedInPeriod p ts = true ∧ e ≠ p.elo
    · rw [repairStep_eq_mut ts st p e hlq hc]
      refine ⟨p.elo, ?_, fun _ => rfl⟩
      show lastElo? (setLastElo st.base p.playerId p.elo ++ st.extra) p.playerId = some p.elo
      rw [lastElo?_append_of_none _ _ _ hxnone]
      exact lastElo?_setLastElo_self _ _ _ (by rw [hlq]; rfl)
    · rw [repairStep_eq_skip ts st p e hlq hc]
      refine ⟨e, ?_, ?_⟩
      · show lastElo? (st.base ++ st.extra) p.playerId = some e
        rw [lastElo?_append_of_none _ _ _ hxnone]
        exact hlq
      · intro hpl
        rcases not_and_or.mp hc with h1 | h2
        · exact absurd (by simp [hpl]) h1
        · exact not_not.mp h2

end FaceitDash

namespace FaceitDash

/-- After the repair pass folds over the results (distinct player ids,
no pending pushed row colliding with a remaining player), every processed
player's table row is good. -/
lemma repairFold_post (ts : Int) :
    ∀ (rs : List PlayerResult) (st : RepairState),
      ((rs.map (·.playerId)).Nodup) →
      (∀ q ∈ rs, ∀ r ∈ st.extra, r.playerId ≠ q.playerId) →
      ∀ p ∈ rs,
        GoodRow ts p ((rs.foldl (repairStep ts) st).base
          ++ (rs.foldl (repairStep ts) st).extra) := by
  intro rs
  induction rs with
  | nil => intro st _ _ p hp; exact absurd hp (List.not_mem_nil p)
  | cons q rest ih =>
    intro st hnd hx p hp
    rw [List.map_cons] at hnd
    have hqrest : q.playerId ∉ rest.map (·.playerId) := (List.nodup_cons.mp hnd).1
    rw [List.foldl_cons]
    rcases List.mem_cons.mp hp with hpq | hprest
    · subst hpq
      apply repairFold_preserves_good ts p rest (repairStep ts st p)
      · intro q' hq' hcq
        exact hqrest (hcq ▸ List.mem_map.mpr ⟨q', hq', rfl⟩)
      · exact repairStep_establishes_good ts p st (hx p (List.mem_cons_self _ _))
    · apply ih (repairStep ts st q) (List.nodup_cons.mp hnd).2
      · intro q' hq' r hr
        rcases repairStep_extra ts st q with hsame | ⟨c, hpush⟩
        · rw [hsame] at hr
          exact hx q' (List.mem_cons_of_mem _ hq') r hr
        · rw [hpush] at hr
          rcases List.mem_append.mp hr with hold | hnew
          · exact hx q' (List.mem_cons_of_mem _ hq') r hold
          · have : r = ⟨q.playerId, c⟩ := by simpa using hnew
            rw [this]
            intro hcq
            exact hqrest (List.mem_map.mpr ⟨q', hq', hcq.symm⟩)
      · exact hprest

/-- When every processed player's row is already good, the repair fold is
the identity on its state (no push, no mutation, flag untouched). -/
lemma repairFold_noop (ts : Int) :
    ∀ (rs : List PlayerResult) (T : List SnapshotRow),
      (∀ p ∈ rs, GoodRow ts p T) →
      rs.foldl (repairStep ts) ⟨T, [], false⟩ = ⟨T, [], false⟩ := by
  intro rs
  induction rs with
  | nil => intro T _; rfl
  | cons p rest ih =>
    intro T hgood
    rw [List.foldl_cons]
    obtain ⟨e, he, himp⟩ := hgood p (List.mem_cons_self _ _)
    have he' : lastElo? ((⟨T, [], false⟩ : RepairState).base) p.playerId = some e := by
      show lastElo? T p.playerId = some e
      exact he
    have hskip : repairStep ts ⟨T, [], false⟩ p = ⟨T, [], false⟩ := by
      apply repairStep_eq_skip ts _ p e he'
      intro ⟨hnp, hne⟩
      exact hne (himp (Bool.not_eq_true _ ▸ Bool.eq_false_iff.mpr (fun ht => hnp ht)))
    rw [hskip]
    exact ih T (fun q hq => hgood q (List.mem_cons_of_mem _ hq))

end FaceitDash

namespace FaceitDash

/-- Counterexample to C4 as stated: with two result entries sharing one
player id but different live ratings (both inactive), the first pass
pushes two conflicting rows; on the second pass the snapshot map sees only
the later row, so the earlier entry rewrites it and the `changed` flag is
true again — the claim fails for arbitrary result lists. -/
theorem C4_counterexample :
    ¬ ((repairPass (repairPass [] [⟨"a", 10, 0, []⟩, ⟨"a", 20, 0, []⟩] 0).1
        [⟨"a", 10, 0, []⟩, ⟨"a", 20, 0, []⟩] 0).2 = false) := by
  decide

/-- C4 amended: the repair pass is idempotent provided no two entries of
the current player-results list share a player id: running it a second
time on the table produced by the first run changes no row, adds no row,
and reports `changed = false`. -/
theorem C4_repair_idempotent (table : List SnapshotRow) (rs : List PlayerResult) (ts : Int)
    (hnd : (rs.map (·.playerId)).Nodup) :
    repairPass (repairPass table rs ts).1 rs ts = ((repairPass table rs ts).1, false) := by
  have hpost := repairFold_post ts rs ⟨table, [], false⟩ hnd
    (fun q _ r hr => absurd hr (List.not_mem_nil r))
  unfold repairPass
  rw [repairFold_noop ts rs _ hpost]
  simp

/-- Witness for C4 amended: two distinct players, one inactive and one
active relative to threshold 3. -/
theorem C4_repair_idempotent_witness :
    repairPass (repairPass [] [⟨"a", 10, 0, []⟩, ⟨"b", 20, 5, []⟩] 3).1
        [⟨"a", 10, 0, []⟩, ⟨"b", 20, 5, []⟩] 3
      = ((repairPass [] [⟨"a", 10, 0, []⟩, ⟨"b", 20, 5, []⟩] 3).1, false) :=
  C4_repair_idempotent [] [⟨"a", 10, 0, []⟩, ⟨"b", 20, 5, []⟩] 3 (by decide)

end FaceitDash
